import Mathlib

/-!
Verification of the Azure RBAC authorizer of the guard webhook server
(package `rbac`: `checkaccessreqhelper.go` and `rbac.go`) against its
natural-language specification.

The Go code is shallowly embedded: pure helpers become Lean functions,
the stateful `AccessInfo` methods become functions with explicit state
passing, and the effectful boundaries (the HTTP round trip of
`CheckAccess`, the `tokenProvider.Acquire` call of `RefreshToken`, and
JSON unmarshalling) are abstracted by passing their outcome as an
argument.  Go `path.Join` / `path.Clean` are embedded faithfully at the
character-list level.
-/

namespace Guard

/-! ## Go standard library fragments: `path.Clean` and `path.Join` -/

/-- Split a character list on the separator character, Go-style:
`splitSlash acc l` accumulates the current (reversed) segment in `acc`. -/
def splitSlash : List Char → List Char → List (List Char)
  | acc, [] => [acc.reverse]
  | acc, c :: cs => if c = '/' then acc.reverse :: splitSlash [] cs else splitSlash (c :: acc) cs

/-- Join segments with `'/'` separators (inverse of `splitSlash`). -/
def joinSegs : List (List Char) → List Char
  | [] => []
  | [s] => s
  | s :: rest => s ++ '/' :: joinSegs rest

/-- The segment-processing loop of Go `path.Clean`: skip empty and `"."`
segments, let `".."` pop the previous segment (or accumulate at the front
when not rooted), push everything else.  `out` is the output stack, most
recent segment first. -/
def cleanSegsAux (rooted : Bool) : List (List Char) → List (List Char) → List (List Char)
  | out, [] => out
  | out, seg :: rest =>
    if seg = [] ∨ seg = ['.'] then cleanSegsAux rooted out rest
    else if seg = ['.', '.'] then
      match out with
      | o :: os =>
        if o = ['.', '.'] then cleanSegsAux rooted (seg :: out) rest
        else cleanSegsAux rooted os rest
      | [] =>
        if rooted then cleanSegsAux rooted [] rest
        else cleanSegsAux rooted [['.', '.']] rest
    else cleanSegsAux rooted (seg :: out) rest

/-- Go `path.Clean` on a character list. -/
def cleanChars (p : List Char) : List Char :=
  if p = [] then ['.']
  else
    let rooted : Bool := p.head? = some '/'
    let segs := splitSlash [] p
    let out := (cleanSegsAux rooted [] segs).reverse
    let joined := joinSegs out
    if rooted then '/' :: joined
    else if joined = [] then ['.'] else joined

/-- Go `path.Clean`. -/
def goPathClean (p : String) : String := String.mk (cleanChars p.data)

/-- Concatenate strings with `'/'` separators, as Go `path.Join` builds
its buffer before cleaning. -/
def joinWithSlash (elems : List String) : String :=
  String.mk (joinSegs (elems.map String.data))

/-- Go `path.Join`: skip leading empty elements (if all elements are
empty the result is `""`), join the rest with `'/'`, then `Clean`. -/
def goPathJoin (elems : List String) : String :=
  match elems.dropWhile (· = "") with
  | [] => ""
  | e :: rest => goPathClean (joinWithSlash (e :: rest))

/-! ## Go standard library fragments: `strings.ToLower` (ASCII fragment) -/

/-- ASCII lower-casing of one character as Go `unicode.ToLower` acts on
the ASCII range. -/
def charToLower (c : Char) : Char :=
  if 'A' ≤ c ∧ c ≤ 'Z' then Char.ofNat (c.toNat + 32) else c

/-- Go `strings.ToLower` (ASCII fragment). -/
def goToLower (s : String) : String := String.mk (s.data.map charToLower)

/-! ## `github.com/google/uuid`: `uuid.Parse` acceptance -/

/-- Hexadecimal digit test (`xtob` of the uuid package accepts `0-9a-fA-F`). -/
def isHexDigit (c : Char) : Bool :=
  ('0' ≤ c ∧ c ≤ '9') ∨ ('a' ≤ c ∧ c ≤ 'f') ∨ ('A' ≤ c ∧ c ≤ 'F')

/-- Both characters at positions `x` and `x+1` are hex digits. -/
def hexPairAt (l : List Char) (x : Nat) : Bool :=
  match l.get? x, l.get? (x + 1) with
  | some a, some b => isHexDigit a && isHexDigit b
  | _, _ => false

/-- The 36-character hyphenated UUID layout: hyphens at offsets
8, 13, 18, 23 and hex digit pairs at the 16 byte offsets. -/
def validHyphenated (l : List Char) : Bool :=
  (l.get? 8 = some '-') && (l.get? 13 = some '-') &&
  (l.get? 18 = some '-') && (l.get? 23 = some '-') &&
  ([0, 2, 4, 6, 9, 11, 14, 16, 19, 21, 24, 26, 28, 30, 32, 34].all (hexPairAt l))

/-- `isValidUUID` of `checkaccessreqhelper.go`: whether
`uuid.Parse` succeeds.  `uuid.Parse` switches on the length: plain
36-char form, `urn:uuid:`-prefixed form (case-insensitive prefix),
brace-wrapped form (only the leading brace is stripped), and the
32-char undashed hex form. -/
def isValidUUID (u : String) : Bool :=
  let l := u.data
  if l.length = 36 then validHyphenated l
  else if l.length = 45 then
    decide (goToLower (String.mk (l.take 9)) = "urn:uuid:") && validHyphenated (l.drop 9)
  else if l.length = 38 then validHyphenated ((l.drop 1).take 36)
  else if l.length = 32 then l.all isHexDigit
  else false

/-! ## Kubernetes `authorization/v1` request and response types -/

/-- `authzv1.ResourceAttributes`. -/
structure ResourceAttributes where
  Namespace : String := ""
  Verb : String := ""
  Group : String := ""
  Version : String := ""
  Resource : String := ""
  Subresource : String := ""
  Name : String := ""
  deriving DecidableEq

/-- `authzv1.NonResourceAttributes`. -/
structure NonResourceAttributes where
  Path : String := ""
  Verb : String := ""
  deriving DecidableEq

/-- `authzv1.SubjectAccessReviewSpec`.  `Extra` is the claim map
(`map[string]ExtraValue`, an `ExtraValue` being a string list), embedded
as an association list. -/
structure SubjectAccessReviewSpec where
  ResourceAttributes : Option ResourceAttributes := none
  NonResourceAttributes : Option NonResourceAttributes := none
  User : String := ""
  Groups : List String := []
  Extra : List (String × List String) := []
  UID : String := ""
  deriving DecidableEq

/-- `authzv1.SubjectAccessReviewStatus` (the fields the rbac package sets). -/
structure SubjectAccessReviewStatus where
  Allowed : Bool := false
  Reason : String := ""
  Denied : Bool := false
  deriving DecidableEq

/-- Go map lookup `spec.Extra[k]`. -/
def extraLookup (extra : List (String × List String)) (k : String) : Option (List String) :=
  (extra.find? (fun p => p.1 == k)).map (·.2)

/-! ## `checkaccessreqhelper.go` -/

/-- Verdict string constant of the rbac package. -/
def AccessAllowedVerdict : String := "Access allowed"

/-- Disposition constant the first decision is compared against. -/
def Allowed : String := "allowed"

/-- Verdict string constant of the rbac package. -/
def AccessNotAllowedVerdict : String :=
  "User does not have access to the resource in Azure. Update role assignment to allow access."

/-- Path segment constant used for namespace scoping. -/
def namespacesSeg : String := "namespaces"

/-- `SubjectInfoAttributes`. -/
structure SubjectInfoAttributes where
  ObjectId : String := ""
  Groups : List String := []
  RetrieveGroupMemberships : Bool := false
  deriving DecidableEq

/-- `SubjectInfo`. -/
structure SubjectInfo where
  Attributes : SubjectInfoAttributes := {}
  deriving DecidableEq

/-- `AuthorizationEntity`. -/
structure AuthorizationEntity where
  Id : String := ""
  deriving DecidableEq

/-- `AuthorizationActionInfo` (embeds `AuthorizationEntity`). -/
structure AuthorizationActionInfo where
  Id : String := ""
  IsDataAction : Bool := false
  deriving DecidableEq

/-- `CheckAccessRequest`. -/
structure CheckAccessRequest where
  Subject : SubjectInfo := {}
  Actions : List AuthorizationActionInfo := []
  Resource : AuthorizationEntity := {}
  deriving DecidableEq

/-- `AuthorizationDecision`, the element type of the check-access
response array.  Only the scalar fields are embedded; the nested role-
and deny-assignment payloads are never read by the code under
verification. -/
structure AuthorizationDecision where
  Decision : String := ""
  ActionId : String := ""
  IsDataAction : Bool := false
  TimeToLiveInMs : Int := 0
  deriving DecidableEq

/-- `getScope`: suffix the resource id with `namespaces/{ns}` via
`path.Join` when the request carries a namespace. -/
def getScope (resourceId : String) (attr : Option ResourceAttributes) : String :=
  match attr with
  | some a => if a.Namespace ≠ "" then goPathJoin [resourceId, namespacesSeg, a.Namespace] else resourceId
  | none => resourceId

/-- `getValidSecurityGroups`: keep only the UUID-shaped groups. -/
def getValidSecurityGroups (groups : List String) : List String :=
  groups.filter isValidUUID

/-- `getActionName`: the verb → action switch (fallthrough groups
rendered as disjunctions, default `""`). -/
def getActionName (verb : String) : String :=
  if verb = "get" ∨ verb = "list" ∨ verb = "watch" then "read"
  else if verb = "bind" then "bind/action"
  else if verb = "escalate" then "escalate/action"
  else if verb = "use" then "use/action"
  else if verb = "impersonate" then "impersonate/action"
  else if verb = "create" ∨ verb = "patch" ∨ verb = "update" then "write"
  else if verb = "delete" ∨ verb = "deletecollection" then "delete"
  else ""

/-- `getDataAction`: build the action id from the cluster type, the API
group (when nonempty), and the resource/path with the mapped action. -/
def getDataAction (subRevReq : SubjectAccessReviewSpec) (clusterType : String) : AuthorizationActionInfo :=
  let id0 := clusterType
  match subRevReq.ResourceAttributes with
  | some ra =>
    let id1 := if ra.Group ≠ "" then goPathJoin [id0, ra.Group] else id0
    { Id := goPathJoin [id1, ra.Resource, getActionName ra.Verb], IsDataAction := true }
  | none =>
    match subRevReq.NonResourceAttributes with
    | some nra => { Id := goPathJoin [id0, nra.Path, getActionName nra.Verb], IsDataAction := true }
    | none => { Id := id0, IsDataAction := true }

/-- `getResultCacheKey`: user, then namespace and group when nonempty,
then resource and mapped action (or path and mapped action for
non-resource requests), joined with `path.Join`. -/
def getResultCacheKey (subRevReq : SubjectAccessReviewSpec) : String :=
  let cacheKey := subRevReq.User
  match subRevReq.ResourceAttributes with
  | some ra =>
    let k1 := if ra.Namespace ≠ "" then goPathJoin [cacheKey, ra.Namespace] else cacheKey
    let k2 := if ra.Group ≠ "" then goPathJoin [k1, ra.Group] else k1
    goPathJoin [k2, ra.Resource, getActionName ra.Verb]
  | none =>
    match subRevReq.NonResourceAttributes with
    | some nra => goPathJoin [cacheKey, nra.Path, getActionName nra.Verb]
    | none => cacheKey

/-- `fmt.Sprintf("%v", v)` for a `[]string`-backed `ExtraValue`:
the elements joined by spaces inside square brackets. -/
def extraValueString (v : List String) : String :=
  "[" ++ String.intercalate " " v ++ "]"

/-- The oid extraction of `prepareCheckAccessRequestBody`:
`val := oid.String(); userOid := val[1 : len(val)-1]` — the bracket
characters are sliced off. -/
def oidFromExtra (v : List String) : String :=
  String.mk (((extraValueString v).data.drop 1).dropLast)

/-- `prepareCheckAccessRequestBody`: fail when the `oid` claim is absent
or not a valid UUID; otherwise build the check-access request (local
groups are only attached when memberships are not resolved remotely). -/
def prepareCheckAccessRequestBody (req : SubjectAccessReviewSpec)
    (clusterType resourceId : String) (retrieveGroupMemberships : Bool) :
    Except String CheckAccessRequest :=
  match extraLookup req.Extra "oid" with
  | none => .error "oid info not sent from authentication module"
  | some oid =>
    let userOid := oidFromExtra oid
    if isValidUUID userOid then
      let groups := if !retrieveGroupMemberships then getValidSecurityGroups req.Groups else []
      .ok { Subject := { Attributes := { ObjectId := userOid, Groups := groups,
                                         RetrieveGroupMemberships := retrieveGroupMemberships } },
            Actions := [getDataAction req clusterType],
            Resource := { Id := getScope resourceId req.ResourceAttributes } }
    else .error "oid info sent from authentication module is not valid"

/-- `getNameSpaceScope`: the optional `namespaces/{ns}` URL path segment. -/
def getNameSpaceScope (req : SubjectAccessReviewSpec) : Bool × String :=
  match req.ResourceAttributes with
  | some ra =>
    if ra.Namespace ≠ "" then (true, goPathJoin [namespacesSeg, ra.Namespace]) else (false, "")
  | none => (false, "")

/-- Outcome of a Go `(*SubjectAccessReviewStatus, error)`-returning
computation; `crash` embeds a runtime panic (the index-out-of-range on
an empty decision array). -/
inductive AuthzOutcome where
  | ok (status : SubjectAccessReviewStatus)
  | error (msg : String)
  | crash
  deriving DecidableEq

/-- `ConvertCheckAccessResponse`.  JSON unmarshalling of the body bytes
is abstracted by taking its result as the argument: `.error` for a body
that does not decode, `.ok` with the decoded decision list otherwise.
An empty decision list makes the Go code index out of range
(`response[0]`), embedded as `crash`. -/
def ConvertCheckAccessResponse (body : Except String (List AuthorizationDecision)) : AuthzOutcome :=
  match body with
  | .error e => .error ("Error in unmarshalling check access response.: " ++ e)
  | .ok [] => .crash
  | .ok (d :: _) =>
    if goToLower d.Decision = Allowed then
      .ok { Allowed := true, Reason := AccessAllowedVerdict, Denied := false }
    else
      .ok { Allowed := false, Reason := AccessNotAllowedVerdict, Denied := true }

/-- Request of the repository's first `getResultCacheKey` test vector. -/
def reqCharlie : SubjectAccessReviewSpec :=
  { User := "charlie@yahoo.com",
    NonResourceAttributes := some { Path := "/apis/v1", Verb := "list" } }

/-- Request of the repository's fourth `getResultCacheKey` test vector. -/
def reqBeta : SubjectAccessReviewSpec :=
  { User := "beta@msn.com",
    ResourceAttributes := some { Namespace := "azure-arc", Group := "authentication.k8s.io",
                                 Resource := "userextras", Subresource := "scopes",
                                 Version := "v1", Name := "test", Verb := "impersonate" } }

/-- Request of the repository's `getDataAction` test vector `arc2`. -/
def reqArc2 : SubjectAccessReviewSpec :=
  { ResourceAttributes := some { Group := "apps", Resource := "deployments",
                                 Subresource := "status", Version := "v1", Name := "test",
                                 Verb := "create" } }

/-! ## `rbac.go`: `AccessInfo` and its methods

Time is embedded as `Int` nanoseconds (Go `time.Time` / `time.Duration`
at nanosecond resolution). -/

/-- One second in nanoseconds (Go `time.Second`). -/
def second : Int := 1000000000

/-- `expiryDelta = 60 * time.Second`. -/
def expiryDelta : Int := 60 * second

/-- Replace the value of header `k` (Go `http.Header.Set`). -/
def headerSet (hs : List (String × String)) (k v : String) : List (String × String) :=
  (k, v) :: hs.filter (fun p => !(p.1 == k))

/-- The fields of `AccessInfo` the verified methods read or write.
`headers` is the header map, `expiresAt` the stored skew-adjusted
expiry instant. -/
structure AccessInfo where
  headers : List (String × String) := [("Content-Type", "application/json")]
  expiresAt : Int := 0
  clusterType : String := ""
  azureResourceId : String := ""
  armCallLimit : Int := 0
  retrieveGroupMemberships : Bool := false
  skipAuthzForNonAADUsers : Bool := false
  deriving DecidableEq

/-- The token/expiry pair returned by a successful
`tokenProvider.Acquire` (`resp.Token`, `resp.Expires` in seconds). -/
structure TokenResp where
  Token : String := ""
  Expires : Int := 0
  deriving DecidableEq

/-- `AccessInfo.RefreshToken`.  The outcome of the effectful
`tokenProvider.Acquire` call is passed as `acquired`; `now` is
`time.Now()`.  Returns the state after the call and the error, if any:
on failure the method returns before touching any state; on success it
sets the `Authorization` header and stores
`now + resp.Expires*second - expiryDelta`. -/
def RefreshToken (a : AccessInfo) (now : Int) (acquired : Except String TokenResp) :
    AccessInfo × Option String :=
  match acquired with
  | .error e => (a, some ("failed to refresh rbac token: " ++ e))
  | .ok resp =>
    ({ a with headers := headerSet a.headers "Authorization" ("Bearer " ++ resp.Token),
              expiresAt := now + resp.Expires * second - expiryDelta }, none)

/-- `AccessInfo.IsTokenExpired`: `a.expiresAt.Before(time.Now())`. -/
def IsTokenExpired (a : AccessInfo) (now : Int) : Bool :=
  if a.expiresAt < now then true else false

/-- The decision cache (`authz.Store`), embedded as an association list
where `Set` prepends and `Get` takes the most recent binding. -/
abbrev Store := List (String × Bool)

/-- `authz.Store.Set`. -/
def storeSet (s : Store) (key : String) (value : Bool) : Store :=
  (key, value) :: s

/-- `authz.Store.Get`. -/
def storeGet (s : Store) (key : String) : Option Bool :=
  (s.find? (fun p => p.1 == key)).map (·.2)

/-- `AccessInfo.SetResultInCache`. -/
def SetResultInCache (cache : Store) (request : SubjectAccessReviewSpec) (result : Bool) : Store :=
  storeSet cache (getResultCacheKey request) result

/-- `AccessInfo.GetResultFromCache` (`found`, `result`). -/
def GetResultFromCache (cache : Store) (request : SubjectAccessReviewSpec) : Bool × Bool :=
  match storeGet cache (getResultCacheKey request) with
  | some v => (true, v)
  | none => (false, false)

deriving instance DecidableEq for Except

/-- Outcome of the HTTP round trip inside `CheckAccess`:
`transportError` covers a failing `client.Do` or body read; `response`
carries the status code and the JSON-decode result of the body bytes
(the decode is only consulted on a 200 status). -/
inductive RemoteOutcome where
  | transportError (msg : String)
  | response (status : Nat) (body : Except String (List AuthorizationDecision))
  deriving DecidableEq

/-- `AccessInfo.CheckAccess`, with the cache threaded explicitly and the
HTTP round trip abstracted as `remote`.  Mirrors the source control
flow: body preparation failure returns at once; a transport failure or
a non-200 status returns an error without touching the cache; on a 200
status the decoded body is converted and the result — the resolved
outcome on success, `false` on a parse failure — is written to the
cache under the request's key before returning. -/
def CheckAccess (a : AccessInfo) (cache : Store) (request : SubjectAccessReviewSpec)
    (remote : RemoteOutcome) : AuthzOutcome × Store :=
  match prepareCheckAccessRequestBody request a.clusterType a.azureResourceId
      a.retrieveGroupMemberships with
  | .error e => (.error ("error in preparing check access request: " ++ e), cache)
  | .ok _ =>
    match remote with
    | .transportError e => (.error ("error in check access request execution: " ++ e), cache)
    | .response status body =>
      if status ≠ 200 then
        (.error ("request failed with status code: " ++ toString status), cache)
      else
        match ConvertCheckAccessResponse body with
        | .ok st => (.ok st, SetResultInCache cache request st.Allowed)
        | .error e => (.error e, SetResultInCache cache request false)
        | .crash => (.crash, cache)

/-! ## Further definitions used by the statements -/

/-- A path segment that `path.Clean` passes through unchanged: neither
empty nor a dot nor a dot-dot segment. -/
def plainSeg (s : List Char) : Prop := s ≠ [] ∧ s ≠ ['.'] ∧ s ≠ ['.', '.']

instance (s : List Char) : Decidable (plainSeg s) := by
  unfold plainSeg
  infer_instance

/-- A request carrying a valid `oid` claim (the repository's own sample
object id) and a namespaced resource query. -/
def reqValidOid : SubjectAccessReviewSpec :=
  { User := "alpha@bing.com",
    Extra := [("oid", ["62103f2e-051d-48cc-af47-b1ff3deec630"])],
    ResourceAttributes := some { Namespace := "dev", Resource := "pods", Verb := "delete" } }

/-- The check-access body `prepareCheckAccessRequestBody` builds for
`reqValidOid` under a default `AccessInfo`. -/
def reqValidOidBody : CheckAccessRequest :=
  { Subject := { Attributes := { ObjectId := "62103f2e-051d-48cc-af47-b1ff3deec630" } },
    Actions := [{ Id := "pods/delete", IsDataAction := true }],
    Resource := { Id := "namespaces/dev" } }

/-- A request whose `oid` claim is present but not UUID-shaped (the
repository's own `Test_prepareCheckAccessRequestBody` vector). -/
def reqInvalidOid : SubjectAccessReviewSpec :=
  { Extra := [("oid", ["test"])] }

/-- Request of the repository's third `getResultCacheKey` test vector. -/
def reqAlpha : SubjectAccessReviewSpec :=
  { User := "alpha@bing.com",
    ResourceAttributes := some { Namespace := "dev", Group := "", Resource := "pods",
                                 Subresource := "status", Version := "v1", Name := "test",
                                 Verb := "delete" } }

/-- `reqAlpha` with a different name and subresource: all cache-key
relevant fields agree with `reqAlpha`. -/
def reqAlphaVariant : SubjectAccessReviewSpec :=
  { User := "alpha@bing.com",
    ResourceAttributes := some { Namespace := "dev", Group := "", Resource := "pods",
                                 Subresource := "log", Version := "v1", Name := "other",
                                 Verb := "delete" } }

/-! ## Sanity theorems: the embedding reproduces the repository's tests -/

/-- Sanity: `path.Join` collapses duplicate slashes as in Go. -/
theorem goPathJoin_collapses_slashes : goPathJoin ["aks", "/apis", "read"] = "aks/apis/read" := by
  decide

/-- Sanity: `path.Clean` resolves dot and dot-dot segments as in Go. -/
theorem goPathClean_dots : goPathClean "a/./b/../c/" = "a/c" := by
  decide

/-- Sanity: the object id of the repository's own example parses. -/
theorem isValidUUID_example : isValidUUID "62103f2e-051d-48cc-af47-b1ff3deec630" = true := by
  decide

/-- Sanity: a non-UUID string is rejected (as in `Test_getValidSecurityGroups`). -/
theorem isValidUUID_reject : isValidUUID "system:ghi" = false := by
  decide

/-- Sanity: the repository's own cache-key test vectors. -/
theorem getResultCacheKey_tests :
    getResultCacheKey reqCharlie = "charlie@yahoo.com/apis/v1/read" ∧
    getResultCacheKey reqBeta =
      "beta@msn.com/azure-arc/authentication.k8s.io/userextras/impersonate/action" := by
  exact ⟨by decide, by decide⟩

/-- Sanity: the repository's own `getDataAction` test vector `arc2`. -/
theorem getDataAction_test :
    getDataAction reqArc2 "arc" = { Id := "arc/apps/deployments/write", IsDataAction := true } := by
  decide

/-! ## Lemmas on the `path.Clean` embedding -/

/-- Splitting distributes over a separator occurrence. -/
theorem splitSlash_append (b : List Char) : ∀ (a acc : List Char),
    splitSlash acc (a ++ '/' :: b) = splitSlash acc a ++ splitSlash [] b := by
  intro a
  induction a with
  | nil => intro acc; simp [splitSlash]
  | cons c cs ih =>
    intro acc
    by_cases hc : c = '/'
    · subst hc; simp [splitSlash, ih]
    · simp [splitSlash, hc, ih]

/-- A separator-free list is a single segment. -/
theorem splitSlash_no_slash : ∀ (l acc : List Char), '/' ∉ l →
    splitSlash acc l = [acc.reverse ++ l] := by
  intro l
  induction l with
  | nil => intro acc _; simp [splitSlash]
  | cons c cs ih =>
    intro acc h
    have hc : ¬(c = '/') := fun e => h (by simp [e])
    have hcs : '/' ∉ cs := fun m => h (List.mem_cons_of_mem _ m)
    simp [splitSlash, hc, ih (c :: acc) hcs]

/-- Splitting never yields the empty segment list. -/
theorem splitSlash_ne_nil : ∀ (l acc : List Char), splitSlash acc l ≠ [] := by
  intro l
  induction l with
  | nil => intro acc; simp [splitSlash]
  | cons c cs ih =>
    intro acc
    by_cases hc : c = '/' <;> simp [splitSlash, hc, ih]

/-- The cleaning loop passes a list of plain segments through unchanged. -/
theorem cleanSegsAux_plain : ∀ (segs out : List (List Char)) (r : Bool),
    (∀ s ∈ segs, plainSeg s) → cleanSegsAux r out segs = segs.reverse ++ out := by
  intro segs
  induction segs with
  | nil => intro out r _; simp [cleanSegsAux]
  | cons s rest ih =>
    intro out r h
    obtain ⟨h1, h2, h3⟩ := h s (by simp)
    have hrest : ∀ t ∈ rest, plainSeg t := fun t ht => h t (by simp [ht])
    simp [cleanSegsAux, h1, h2, h3, ih (s :: out) r hrest]

/-- Joining the split segments recovers the original list. -/
theorem joinSegs_splitSlash : ∀ (l acc : List Char),
    joinSegs (splitSlash acc l) = acc.reverse ++ l := by
  intro l
  induction l with
  | nil => intro acc; simp [splitSlash, joinSegs]
  | cons c cs ih =>
    intro acc
    by_cases hc : c = '/'
    · subst hc
      obtain ⟨s, rest, hsr⟩ : ∃ s rest, splitSlash ([] : List Char) cs = s :: rest := by
        cases hsp : splitSlash [] cs with
        | nil => exact absurd hsp (splitSlash_ne_nil cs [])
        | cons s rest => exact ⟨s, rest, rfl⟩
      have := ih ([] : List Char)
      rw [hsr] at this
      simp [splitSlash, hsr, joinSegs, this]
    · simp [splitSlash, hc, ih (c :: acc)]

/-- Rebuilding a string from its character list is the identity. -/
theorem stringMk_data (s : String) : String.mk s.data = s := rfl

/-- `path.Clean` fixes any string all of whose segments are plain. -/
theorem cleanChars_of_plain (l : List Char) (h : ∀ s ∈ splitSlash [] l, plainSeg s) :
    cleanChars l = l := by
  have hne : l ≠ [] := by
    intro e; subst e
    exact (h [] (by simp [splitSlash])).1 rfl
  have hhead : ¬(l.head? = some '/') := by
    intro e
    cases l with
    | nil => simp at e
    | cons c cs =>
      simp at e
      subst e
      have hm : ([] : List Char) ∈ splitSlash [] ('/' :: cs) := by
        simp [splitSlash]
      exact (h [] hm).1 rfl
  rw [cleanChars, if_neg hne]
  simp only [decide_eq_false hhead, Bool.false_eq_true, if_false,
    cleanSegsAux_plain (splitSlash [] l) [] false h, List.append_nil, List.reverse_reverse,
    joinSegs_splitSlash l [], List.reverse_nil, List.nil_append, if_neg hne]

/-- `path.Join [rid, "namespaces", ns]` is plain concatenation when the
segments of `rid` and `ns` are plain. -/
theorem goPathJoin_namespaces (rid ns : String)
    (hrid : ∀ s ∈ splitSlash [] rid.data, plainSeg s)
    (hns1 : '/' ∉ ns.data) (hns2 : plainSeg ns.data) :
    goPathJoin [rid, namespacesSeg, ns] = rid ++ "/namespaces/" ++ ns := by
  have hridne : ¬(rid = "") := by
    intro e; subst e
    exact (hrid [] (by simp [splitSlash])).1 rfl
  have hsegs : splitSlash [] (rid.data ++ '/' :: (namespacesSeg.data ++ '/' :: ns.data)) =
      splitSlash [] rid.data ++ ([namespacesSeg.data] ++ [ns.data]) := by
    rw [splitSlash_append _ rid.data []]
    rw [splitSlash_append _ namespacesSeg.data []]
    rw [splitSlash_no_slash ns.data [] hns1]
    rw [splitSlash_no_slash namespacesSeg.data [] (by decide)]
    simp
  have hplain : ∀ s ∈ splitSlash [] (rid.data ++ '/' :: (namespacesSeg.data ++ '/' :: ns.data)),
      plainSeg s := by
    rw [hsegs]
    intro s hs
    rcases List.mem_append.mp hs with hs | hs
    · exact hrid s hs
    · rcases List.mem_append.mp hs with hs | hs
      · rw [List.mem_singleton.mp hs]; exact ⟨by decide, by decide, by decide⟩
      · rw [List.mem_singleton.mp hs]; exact hns2
  have hjoin : joinWithSlash [rid, namespacesSeg, ns] =
      String.mk (rid.data ++ '/' :: (namespacesSeg.data ++ '/' :: ns.data)) := by
    simp [joinWithSlash, joinSegs]
  have hd : List.dropWhile (fun x => decide (x = "")) [rid, namespacesSeg, ns] =
      [rid, namespacesSeg, ns] := by
    simp [List.dropWhile_cons, hridne]
  rw [goPathJoin, hd]
  show goPathClean (joinWithSlash [rid, namespacesSeg, ns]) = _
  rw [hjoin, goPathClean]
  have hdata : (String.mk (rid.data ++ '/' :: (namespacesSeg.data ++ '/' :: ns.data))).data =
      rid.data ++ '/' :: (namespacesSeg.data ++ '/' :: ns.data) := rfl
  rw [hdata, cleanChars_of_plain _ hplain]
  have : rid.data ++ '/' :: (namespacesSeg.data ++ '/' :: ns.data) =
      (rid ++ "/namespaces/" ++ ns).data := by
    show _ = ((rid ++ "/namespaces/") ++ ns).data
    rw [String.data_append, String.data_append]
    have h1 : ("/namespaces/" : String).data = '/' :: namespacesSeg.data ++ ['/'] := by decide
    rw [h1]
    simp
  rw [this, stringMk_data]

/-! ## Claim theorems -/

/-- Claim C4 (confirmed): the verb-to-action mapping is total and agrees
with the table — get/list/watch map to read, create/patch/update to
write, delete/deletecollection to delete, bind/escalate/use/impersonate
to their `/action` forms, and every other verb to the empty string. -/
theorem getActionName_table :
    getActionName "get" = "read" ∧ getActionName "list" = "read" ∧
    getActionName "watch" = "read" ∧ getActionName "create" = "write" ∧
    getActionName "patch" = "write" ∧ getActionName "update" = "write" ∧
    getActionName "delete" = "delete" ∧ getActionName "deletecollection" = "delete" ∧
    getActionName "bind" = "bind/action" ∧ getActionName "escalate" = "escalate/action" ∧
    getActionName "use" = "use/action" ∧ getActionName "impersonate" = "impersonate/action" ∧
    ∀ v : String, v ≠ "get" → v ≠ "list" → v ≠ "watch" → v ≠ "create" → v ≠ "patch" →
      v ≠ "update" → v ≠ "delete" → v ≠ "deletecollection" → v ≠ "bind" → v ≠ "escalate" →
      v ≠ "use" → v ≠ "impersonate" → getActionName v = "" := by
  refine ⟨by decide, by decide, by decide, by decide, by decide, by decide, by decide, by decide,
          by decide, by decide, by decide, by decide, ?_⟩
  intro v h1 h2 h3 h4 h5 h6 h7 h8 h9 h10 h11 h12
  simp [getActionName, h1, h2, h3, h4, h5, h6, h7, h8, h9, h10, h11, h12]

/-- Witness for the default case of C4 at the spec's own example
verb `"unknown"`. -/
theorem getActionName_table_witness : getActionName "unknown" = "" :=
  getActionName_table.2.2.2.2.2.2.2.2.2.2.2.2 "unknown" (by decide) (by decide) (by decide)
    (by decide) (by decide) (by decide) (by decide) (by decide) (by decide) (by decide)
    (by decide) (by decide)

/-- Claim C2 (confirmed): for a body decoding to a non-empty decision
list, the status is allowed (with `AccessAllowedVerdict`, denied false)
exactly when the first decision's disposition lower-cases to
`"allowed"`, and otherwise denied (with `AccessNotAllowedVerdict`,
allowed false). -/
theorem convertCheckAccessResponse_first_decision (d : AuthorizationDecision)
    (ds : List AuthorizationDecision) :
    (ConvertCheckAccessResponse (.ok (d :: ds)) =
        .ok { Allowed := true, Reason := AccessAllowedVerdict, Denied := false } ↔
      goToLower d.Decision = Allowed) ∧
    (ConvertCheckAccessResponse (.ok (d :: ds)) =
        .ok { Allowed := false, Reason := AccessNotAllowedVerdict, Denied := true } ↔
      ¬(goToLower d.Decision = Allowed)) := by
  by_cases h : goToLower d.Decision = Allowed <;>
    simp [ConvertCheckAccessResponse, h]

/-- Witness for C2 at a concrete decision list whose first disposition
is `"Allowed"` (mixed case). -/
theorem convertCheckAccessResponse_first_decision_witness :
    ConvertCheckAccessResponse (.ok [{ Decision := "Allowed" }]) =
      .ok { Allowed := true, Reason := AccessAllowedVerdict, Denied := false } :=
  (convertCheckAccessResponse_first_decision { Decision := "Allowed" } []).1.mpr (by decide)

/-- Claim C8 (confirmed): a failed token acquisition makes
`RefreshToken` report an error and leave the header map and the stored
skew-adjusted expiry exactly as they were. -/
theorem refreshToken_failure_preserves_state (a : AccessInfo) (now : Int) (e : String) :
    (RefreshToken a now (.error e)).1.headers = a.headers ∧
    (RefreshToken a now (.error e)).1.expiresAt = a.expiresAt ∧
    (RefreshToken a now (.error e)).2 = some ("failed to refresh rbac token: " ++ e) := by
  simp [RefreshToken]

/-- Claim C7 counterexample: after a successful refresh storing the
skew-adjusted expiry, `IsTokenExpired` queried exactly at that expiry
instant returns false, while the claim ("at or past") demands true. -/
theorem isTokenExpired_at_expiry_counterexample :
    (RefreshToken {} 0 (.ok { Token := "t", Expires := 100 })).1.expiresAt = 40 * second ∧
    IsTokenExpired (RefreshToken {} 0 (.ok { Token := "t", Expires := 100 })).1
      (40 * second) = false := by
  decide

/-- Claim C7 (amended): `IsTokenExpired` returns true exactly when the
current time is strictly past the stored skew-adjusted expiry, and the
value a successful refresh stores is the acquisition time plus the
reported validity minus the 60-second buffer. -/
theorem isTokenExpired_strictly_past :
    (∀ (a : AccessInfo) (now : Int), IsTokenExpired a now = true ↔ a.expiresAt < now) ∧
    (∀ (a : AccessInfo) (now : Int) (resp : TokenResp),
      (RefreshToken a now (.ok resp)).1.expiresAt = now + resp.Expires * second - expiryDelta) := by
  constructor
  · intro a now
    by_cases h : a.expiresAt < now <;> simp [IsTokenExpired, h]
  · intro a now resp
    simp [RefreshToken]

/-- Witness for C7 (amended) at a concrete state one nanosecond past
its stored expiry. -/
theorem isTokenExpired_strictly_past_witness :
    IsTokenExpired { expiresAt := 5 } 6 = true :=
  (isTokenExpired_strictly_past.1 { expiresAt := 5 } 6).mpr (by decide)

/-- Witness for C8 at a concrete failing acquisition. -/
theorem refreshToken_failure_preserves_state_witness :
    (RefreshToken {} 0 (.error "boom")).1.headers = ({} : AccessInfo).headers ∧
    (RefreshToken {} 0 (.error "boom")).1.expiresAt = ({} : AccessInfo).expiresAt ∧
    (RefreshToken {} 0 (.error "boom")).2 = some ("failed to refresh rbac token: " ++ "boom") :=
  refreshToken_failure_preserves_state {} 0 "boom"

/-- Claim C6 counterexample: with an empty resource id and namespace
`"test"`, `getScope` returns `"namespaces/test"` (Go `path.Join` drops
the empty element), not `"" ++ "/namespaces/" ++ "test"`. -/
theorem getScope_empty_resourceId_counterexample :
    getScope "" (some { Namespace := "test" }) = "namespaces/test" ∧
    ¬(getScope "" (some { Namespace := "test" }) = "" ++ "/namespaces/" ++ "test") := by
  exact ⟨by decide, by decide⟩

/-- Claim C6 (amended): `getScope` returns the resource id unchanged
when the attributes are absent or carry an empty namespace; when a
namespace is present the result is the lexically cleaned path join of
the resource id, `"namespaces"`, and the namespace — which equals
`resourceId ++ "/namespaces/" ++ ns` whenever the resource id consists
of plain path segments and the namespace is a plain slash-free segment
(the counterexample `resourceId = ""` shows the unconditional
concatenation claim fails). -/
theorem getScope_spec :
    (∀ rid : String, getScope rid none = rid) ∧
    (∀ (rid : String) (ra : ResourceAttributes), ra.Namespace = "" →
      getScope rid (some ra) = rid) ∧
    (∀ (rid : String) (ra : ResourceAttributes),
      (∀ s ∈ splitSlash [] rid.data, plainSeg s) → '/' ∉ ra.Namespace.data →
      plainSeg ra.Namespace.data →
      getScope rid (some ra) = rid ++ "/namespaces/" ++ ra.Namespace) ∧
    getScope "resourceId" (some { Namespace := "test" }) = "resourceId/namespaces/test" := by
  refine ⟨fun rid => rfl, ?_, ?_, by decide⟩
  · intro rid ra h
    simp [getScope, h]
  · intro rid ra hrid hns1 hns2
    have hne : ¬(ra.Namespace = "") := fun e => hns2.1 (by rw [e])
    show (if ra.Namespace ≠ "" then goPathJoin [rid, namespacesSeg, ra.Namespace] else rid) = _
    rw [if_pos hne]
    exact goPathJoin_namespaces rid ra.Namespace hrid hns1 hns2

/-- Witness for C6: the hypothesis-bearing branches applied at concrete
inputs — an empty namespace leaves a multi-segment resource id
unchanged, and a plain namespace is appended by concatenation. -/
theorem getScope_spec_witness :
    getScope "subscriptions/sub" (some { Namespace := "" }) = "subscriptions/sub" ∧
    getScope "subscriptions/sub" (some { Namespace := "dev" }) =
      "subscriptions/sub/namespaces/dev" := by
  constructor
  · exact getScope_spec.2.1 "subscriptions/sub" { Namespace := "" } (by decide)
  · have h := getScope_spec.2.2.1 "subscriptions/sub" { Namespace := "dev" }
      (by decide) (by decide) (by decide)
    simpa using h

/-- Claim C3 (confirmed): the cache key is a pure function of the
user and the key-relevant attribute fields (namespace, API group,
resource, path, verb), depends on the verb only through the mapped
action — so verbs with equal actions give equal keys — and the spec's
example key evaluates to `"alpha@bing.com/dev/pods/delete"`. -/
theorem getResultCacheKey_deterministic_action_based :
    (∀ s₁ s₂ : SubjectAccessReviewSpec,
      s₁.User = s₂.User →
      s₁.ResourceAttributes.map (fun ra => (ra.Namespace, ra.Group, ra.Resource, ra.Verb)) =
        s₂.ResourceAttributes.map (fun ra => (ra.Namespace, ra.Group, ra.Resource, ra.Verb)) →
      s₁.NonResourceAttributes.map (fun nra => (nra.Path, nra.Verb)) =
        s₂.NonResourceAttributes.map (fun nra => (nra.Path, nra.Verb)) →
      getResultCacheKey s₁ = getResultCacheKey s₂) ∧
    (∀ (s : SubjectAccessReviewSpec) (ra : ResourceAttributes) (v : String),
      s.ResourceAttributes = some ra → getActionName ra.Verb = getActionName v →
      getResultCacheKey s =
        getResultCacheKey { s with ResourceAttributes := some { ra with Verb := v } }) ∧
    (∀ (s : SubjectAccessReviewSpec) (nra : NonResourceAttributes) (v : String),
      s.ResourceAttributes = none → s.NonResourceAttributes = some nra →
      getActionName nra.Verb = getActionName v →
      getResultCacheKey s =
        getResultCacheKey { s with NonResourceAttributes := some { nra with Verb := v } }) ∧
    getResultCacheKey reqAlpha = "alpha@bing.com/dev/pods/delete" := by
  refine ⟨?_, ?_, ?_, by decide⟩
  · intro s₁ s₂ hu hra hnra
    cases h₁ : s₁.ResourceAttributes with
    | some ra₁ =>
      rw [h₁] at hra
      cases h₂ : s₂.ResourceAttributes with
      | some ra₂ =>
        rw [h₂] at hra
        simp only [Option.map_some', Option.some.injEq, Prod.mk.injEq] at hra
        obtain ⟨e1, e2, e3, e4⟩ := hra
        simp [getResultCacheKey, h₁, h₂, hu, e1, e2, e3, e4]
      | none => rw [h₂] at hra; simp at hra
    | none =>
      rw [h₁] at hra
      cases h₂ : s₂.ResourceAttributes with
      | some ra₂ => rw [h₂] at hra; simp at hra
      | none =>
        cases h₃ : s₁.NonResourceAttributes with
        | some nra₁ =>
          rw [h₃] at hnra
          cases h₄ : s₂.NonResourceAttributes with
          | some nra₂ =>
            rw [h₄] at hnra
            simp only [Option.map_some', Option.some.injEq, Prod.mk.injEq] at hnra
            obtain ⟨e1, e2⟩ := hnra
            simp [getResultCacheKey, h₁, h₂, h₃, h₄, hu, e1, e2]
          | none => rw [h₄] at hnra; simp at hnra
        | none =>
          rw [h₃] at hnra
          cases h₄ : s₂.NonResourceAttributes with
          | some nra₂ => rw [h₄] at hnra; simp at hnra
          | none => simp [getResultCacheKey, h₁, h₂, h₃, h₄, hu]
  · intro s ra v hs hv
    simp [getResultCacheKey, hs, hv]
  · intro s nra v hs hn hv
    simp [getResultCacheKey, hs, hn, hv]

/-- Witness for C3: two requests differing only in name and subresource
share a key, and the same request issued with verb `"get"` in place of
`"list"` (equal mapped actions) shares a key. -/
theorem getResultCacheKey_deterministic_witness :
    getResultCacheKey reqAlpha = getResultCacheKey reqAlphaVariant ∧
    getResultCacheKey reqCharlie =
      getResultCacheKey { reqCharlie with
        NonResourceAttributes := some { Path := "/apis/v1", Verb := "get" } } := by
  constructor
  · exact getResultCacheKey_deterministic_action_based.1 reqAlpha reqAlphaVariant
      (by decide) (by decide) (by decide)
  · have h := getResultCacheKey_deterministic_action_based.2.2.1 reqCharlie
      { Path := "/apis/v1", Verb := "list" } "get" (by decide) (by decide) (by decide)
    simpa using h

/-- Claim C5 (confirmed): when the extra-claims map has no `oid` entry,
or its `oid` value does not parse as a UUID, `CheckAccess` fails with
the credential error from request-body construction: the result is an
error, the cache is untouched, and the outcome is independent of the
remote call (nothing is sent). -/
theorem checkAccess_invalid_oid_fails_before_remote (a : AccessInfo) (cache : Store)
    (req : SubjectAccessReviewSpec) (r₁ r₂ : RemoteOutcome)
    (h : extraLookup req.Extra "oid" = none ∨
         ∃ v, extraLookup req.Extra "oid" = some v ∧ isValidUUID (oidFromExtra v) = false) :
    (∃ msg, CheckAccess a cache req r₁ = (.error msg, cache)) ∧
    CheckAccess a cache req r₁ = CheckAccess a cache req r₂ := by
  rcases h with h | ⟨v, hv, hu⟩
  · constructor
    · refine ⟨"error in preparing check access request: " ++
        "oid info not sent from authentication module", ?_⟩
      simp [CheckAccess, prepareCheckAccessRequestBody, h]
    · simp [CheckAccess, prepareCheckAccessRequestBody, h]
  · constructor
    · refine ⟨"error in preparing check access request: " ++
        "oid info sent from authentication module is not valid", ?_⟩
      simp [CheckAccess, prepareCheckAccessRequestBody, hv, hu]
    · simp [CheckAccess, prepareCheckAccessRequestBody, hv, hu]

/-- Witness for C5 at the repository's own invalid-oid test vector
(`oid = ["test"]`), with two different remote outcomes. -/
theorem checkAccess_invalid_oid_fails_before_remote_witness :
    (∃ msg, CheckAccess {} [] reqInvalidOid (.transportError "boom") = (.error msg, [])) ∧
    CheckAccess {} [] reqInvalidOid (.transportError "boom") =
      CheckAccess {} [] reqInvalidOid (.response 200 (.ok [])) :=
  checkAccess_invalid_oid_fails_before_remote {} [] reqInvalidOid (.transportError "boom")
    (.response 200 (.ok [])) (Or.inr ⟨["test"], by decide, by decide⟩)

/-- Claim C1 counterexample: a request that reaches the remote call
(body preparation succeeds) whose remote call returns status 500:
`CheckAccess` propagates an error but writes no cache entry, so the
request's key is left unset — refuting "a cache entry is written for
every invocation that reaches the remote call". -/
theorem checkAccess_non200_leaves_key_unset :
    (prepareCheckAccessRequestBody reqValidOid "" "" false).isOk = true ∧
    CheckAccess {} [] reqValidOid (.response 500 (.ok [])) =
      (.error "request failed with status code: 500", []) ∧
    storeGet (CheckAccess {} [] reqValidOid (.response 500 (.ok []))).2
      (getResultCacheKey reqValidOid) = none := by
  refine ⟨by decide, by decide, by decide⟩

/-- Claim C1 (amended): for every invocation that reaches the remote
call and receives an HTTP 200 response whose body is read, the
conversion outcome is cached under the request's key — the resolved
allowed outcome on a successful parse of a non-empty decision list, a
deny (false) together with a propagated error on a parse failure —
while a transport failure or a non-200 status propagates an error and
leaves the key untouched; so every such failure yields a propagated
error, a cached deny, or both. -/
theorem checkAccess_cache_write (a : AccessInfo) (cache : Store)
    (req : SubjectAccessReviewSpec) (body : CheckAccessRequest)
    (hprep : prepareCheckAccessRequestBody req a.clusterType a.azureResourceId
      a.retrieveGroupMemberships = .ok body) :
    (∀ e, CheckAccess a cache req (.response 200 (.error e)) =
      (.error ("Error in unmarshalling check access response.: " ++ e),
       storeSet cache (getResultCacheKey req) false)) ∧
    (∀ d ds, ∃ st, ConvertCheckAccessResponse (.ok (d :: ds)) = .ok st ∧
      CheckAccess a cache req (.response 200 (.ok (d :: ds))) =
        (.ok st, storeSet cache (getResultCacheKey req) st.Allowed)) ∧
    (∀ msg, CheckAccess a cache req (.transportError msg) =
      (.error ("error in check access request execution: " ++ msg), cache)) ∧
    (∀ status bodyBytes, ¬(status = 200) → CheckAccess a cache req (.response status bodyBytes) =
      (.error ("request failed with status code: " ++ toString status), cache)) := by
  refine ⟨?_, ?_, ?_, ?_⟩
  · intro e
    simp [CheckAccess, hprep, ConvertCheckAccessResponse, SetResultInCache, storeSet]
  · intro d ds
    by_cases h : goToLower d.Decision = Allowed
    · refine ⟨{ Allowed := true, Reason := AccessAllowedVerdict, Denied := false }, ?_, ?_⟩
      · simp [ConvertCheckAccessResponse, h]
      · simp [CheckAccess, hprep, ConvertCheckAccessResponse, h, SetResultInCache, storeSet]
    · refine ⟨{ Allowed := false, Reason := AccessNotAllowedVerdict, Denied := true }, ?_, ?_⟩
      · simp [ConvertCheckAccessResponse, h]
      · simp [CheckAccess, hprep, ConvertCheckAccessResponse, h, SetResultInCache, storeSet]
  · intro msg
    simp [CheckAccess, hprep]
  · intro status bodyBytes hs
    simp [CheckAccess, hprep, hs]

/-- Witness for C1 (amended) at a concrete request with a valid oid
claim: a parse failure on a 200 response caches a deny under the
request's key and propagates the error. -/
theorem checkAccess_cache_write_witness :
    CheckAccess {} [] reqValidOid (.response 200 (.error "bad json")) =
      (.error "Error in unmarshalling check access response.: bad json",
       storeSet [] (getResultCacheKey reqValidOid) false) :=
  (checkAccess_cache_write {} [] reqValidOid reqValidOidBody (by decide)).1 "bad json"

end Guard
